import Mathlib

/-!
Shallow embedding of the duplicate-safe job-scheduler core of the
Subham-Satapathy/job-scheduler repository, together with proofs that settle
the frozen claims C1 to C10 about its specification.

Conventions of the embedding:
* Timestamps are modelled as `Int` milliseconds since the Unix epoch, with the
  process timezone taken to be UTC (so the JavaScript calendar-day step
  `setDate(getDate() + 1)` is exactly `+ 86400000` ms, and `setMonth` is the
  civil-calendar month step implemented below).
* A JavaScript `Date` value that may be Invalid (for example
  `new Date(undefined)`) is modelled as `Option Int` with `none` meaning
  Invalid; numeric comparisons against an Invalid date are `false`, matching
  NaN semantics.
* JSON-like payloads (`data` fields) are modelled by the inductive `JsonVal`.
* The Redis cache, the Postgres table and the BullMQ queue are modelled as
  explicit components of a `SysState`; transient store failures are injected
  through an oracle `ok : Nat → Bool` giving the outcome of each numbered
  query attempt.
* Logging and latency instrumentation of the source are not modelled, except
  that `calculateNextRun` additionally reports (as a `Bool`) whether its
  unknown-frequency warning branch was taken.
-/

/-! ## Enums and the string conversions of services/job.service.ts -/

inductive JobStatus where
  | PENDING : JobStatus
  | RUNNING : JobStatus
  | COMPLETED : JobStatus
  | FAILED : JobStatus
  | CANCELLED : JobStatus
deriving DecidableEq, Repr

inductive JobFrequency where
  | ONCE : JobFrequency
  | DAILY : JobFrequency
  | WEEKLY : JobFrequency
  | MONTHLY : JobFrequency
  | CUSTOM : JobFrequency
deriving DecidableEq, Repr

/-- Runtime string value of the TypeScript enum member (types/job.ts). -/
def statusEnumStr : JobStatus → String
  | .PENDING => "PENDING"
  | .RUNNING => "RUNNING"
  | .COMPLETED => "COMPLETED"
  | .FAILED => "FAILED"
  | .CANCELLED => "CANCELLED"

/-- Runtime string value of the TypeScript enum member (types/job.ts). -/
def freqEnumStr : JobFrequency → String
  | .ONCE => "ONCE"
  | .DAILY => "DAILY"
  | .WEEKLY => "WEEKLY"
  | .MONTHLY => "MONTHLY"
  | .CUSTOM => "CUSTOM"

/-- ASCII uppercase of one character, the fragment of String.prototype.toUpperCase
relevant to the enum strings handled by the source. -/
def upAsciiChar (c : Char) : Char :=
  if c.toNat ≥ 97 && c.toNat ≤ 122 then Char.ofNat (c.toNat - 32) else c

/-- ASCII uppercase of a string. -/
def upAscii (s : String) : String := String.mk (s.toList.map upAsciiChar)

/-- convertStatusToDbString of services/job.service.ts: CANCELLED is stored
as the string for FAILED. -/
def convertStatusToDbString : JobStatus → String
  | .PENDING => "pending"
  | .RUNNING => "running"
  | .COMPLETED => "completed"
  | .FAILED => "failed"
  | .CANCELLED => "failed"

/-- frequencyToDbString of services/job.service.ts. -/
def frequencyToDbString : JobFrequency → String
  | .ONCE => "once"
  | .DAILY => "daily"
  | .WEEKLY => "weekly"
  | .MONTHLY => "monthly"
  | .CUSTOM => "custom"

/-- dbStringToStatus of services/job.service.ts (uppercases, defaults to
PENDING with a logged warning on unknown values). -/
def dbStringToStatus (status : String) : JobStatus :=
  let u := upAscii status
  if u == "PENDING" then .PENDING
  else if u == "RUNNING" then .RUNNING
  else if u == "COMPLETED" then .COMPLETED
  else if u == "FAILED" then .FAILED
  else if u == "CANCELLED" then .CANCELLED
  else .PENDING

/-- dbStringToFrequency of services/job.service.ts (uppercases, defaults to
ONCE with a logged warning on unknown values). -/
def dbStringToFrequency (frequency : String) : JobFrequency :=
  let u := upAscii frequency
  if u == "ONCE" then .ONCE
  else if u == "DAILY" then .DAILY
  else if u == "WEEKLY" then .WEEKLY
  else if u == "MONTHLY" then .MONTHLY
  else if u == "CUSTOM" then .CUSTOM
  else .ONCE

/-! ## JSON values and the fingerprint pipeline of utils/jobHash.ts -/

/-- JSON-like runtime values carried in a job `data` document.  Objects are
association lists with the distinct keys of a JavaScript object, in insertion
order. -/
inductive JsonVal where
  | jnull : JsonVal
  | jbool (b : Bool) : JsonVal
  | jnum (n : Int) : JsonVal
  | jstr (s : String) : JsonVal
  | jarr (xs : List JsonVal) : JsonVal
  | jobj (fields : List (String × JsonVal)) : JsonVal

/-- Code points treated as whitespace by String.prototype.trim. -/
def isJsWhitespace (c : Char) : Bool :=
  let n := c.toNat
  (n ≥ 9 && n ≤ 13) || n == 32 || n == 160 || n == 5760 ||
  (n ≥ 8192 && n ≤ 8202) || n == 8232 || n == 8233 || n == 8239 ||
  n == 8287 || n == 12288 || n == 65279

/-- String.prototype.trim: drop leading and trailing whitespace. -/
def jsTrim (s : String) : String :=
  String.mk
    (((s.toList.dropWhile isJsWhitespace).reverse.dropWhile isJsWhitespace).reverse)

/-- UTF-16 code units of a character, used by the default Array.prototype.sort
comparator on strings. -/
def utf16Units (c : Char) : List Nat :=
  let n := c.toNat
  if n < 65536 then [n]
  else [55296 + (n - 65536) / 1024, 56320 + (n - 65536) % 1024]

/-- Lexicographic strict order on lists of numbers. -/
def lexLtNat : List Nat → List Nat → Bool
  | [], [] => false
  | [], _ :: _ => true
  | _ :: _, [] => false
  | x :: xs, y :: ys => if x < y then true else if y < x then false else lexLtNat xs ys

/-- Strict string order of the default JavaScript sort comparator
(lexicographic on UTF-16 code units). -/
def jsStrLt (a b : String) : Bool :=
  lexLtNat (a.toList.flatMap utf16Units) (b.toList.flatMap utf16Units)

/-- Stable insertion of a keyed pair into a list sorted by jsStrLt on keys. -/
def insertPairByKey (x : String × JsonVal) :
    List (String × JsonVal) → List (String × JsonVal)
  | [] => [x]
  | y :: ys => if jsStrLt y.1 x.1 then y :: insertPairByKey x ys else x :: y :: ys

/-- Stable sort of object fields by key, the observable effect of
Object.keys(data).sort() followed by per-key assembly in the source (object
keys are distinct, so sorting the keys and looking each one up is the same as
stably sorting the pairs by key). -/
def sortByKey : List (String × JsonVal) → List (String × JsonVal)
  | [] => []
  | x :: xs => insertPairByKey x (sortByKey xs)

mutual
/-- normalizeJobHashData of utils/jobHash.ts: null/undefined collapse to null,
strings are trimmed, arrays keep order with elements normalized, objects are
sorted by key with values normalized.  The in-object special cases of the
source (null to null, string to trim) coincide with the first cases of this
very function, so object values are normalized by a direct recursive call. -/
def normalizeJobHashData : JsonVal → JsonVal
  | .jnull => .jnull
  | .jbool b => .jbool b
  | .jnum n => .jnum n
  | .jstr s => .jstr (jsTrim s)
  | .jarr xs => .jarr (normalizeArr xs)
  | .jobj fs => .jobj (sortByKey (normalizeFields fs))

/-- Elementwise normalization of an array. -/
def normalizeArr : List JsonVal → List JsonVal
  | [] => []
  | x :: xs => normalizeJobHashData x :: normalizeArr xs

/-- Valuewise normalization of object fields (key order untouched here; the
caller sorts). -/
def normalizeFields : List (String × JsonVal) → List (String × JsonVal)
  | [] => []
  | (k, v) :: fs => (k, normalizeJobHashData v) :: normalizeFields fs
end

/-- JSON.stringify escaping of one character inside a string literal. -/
def jsonEscChar (c : Char) : List Char :=
  if c = '"' then ['\\', '"']
  else if c = '\\' then ['\\', '\\']
  else if c = Char.ofNat 8 then ['\\', 'b']
  else if c = Char.ofNat 9 then ['\\', 't']
  else if c = Char.ofNat 10 then ['\\', 'n']
  else if c = Char.ofNat 12 then ['\\', 'f']
  else if c = Char.ofNat 13 then ['\\', 'r']
  else if c.toNat < 32 then
    ['\\', 'u', '0', '0',
     (if c.toNat / 16 < 10 then Char.ofNat (48 + c.toNat / 16)
      else Char.ofNat (87 + c.toNat / 16)),
     (if c.toNat % 16 < 10 then Char.ofNat (48 + c.toNat % 16)
      else Char.ofNat (87 + c.toNat % 16))]
  else [c]

/-- JSON.stringify of a string value. -/
def jsonQuote (s : String) : String :=
  String.mk ('"' :: (s.toList.flatMap jsonEscChar) ++ ['"'])

/-- String(n) for the integer payload numbers of the model. -/
def jsNumStr (n : Int) : String := Int.repr n

/-- Comma-join of serialized fragments. -/
def joinComma : List String → String
  | [] => ""
  | [x] => x
  | x :: xs => x ++ "," ++ joinComma xs

theorem sizeOf_insertPairByKey (x : String × JsonVal) (l : List (String × JsonVal)) :
    sizeOf (insertPairByKey x l) = 1 + sizeOf x + sizeOf l := by
  induction l with
  | nil => simp [insertPairByKey]
  | cons y ys ih =>
      by_cases h : jsStrLt y.1 x.1
      · simp [insertPairByKey, h, ih]
        omega
      · simp [insertPairByKey, h]

theorem sizeOf_sortByKey (l : List (String × JsonVal)) :
    sizeOf (sortByKey l) = sizeOf l := by
  induction l with
  | nil => rfl
  | cons x xs ih => simp [sortByKey, sizeOf_insertPairByKey, ih]

mutual
/-- stringifyDeterministicForHash of utils/jobHash.ts: canonical serialization
with object keys sorted (keys are interpolated raw, values recursively). -/
def stringifyDeterministicForHash : JsonVal → String
  | .jnull => "null"
  | .jbool b => if b then "true" else "false"
  | .jnum n => jsNumStr n
  | .jstr s => jsonQuote s
  | .jarr xs => "[" ++ joinComma (stringifyArr xs) ++ "]"
  | .jobj fs => "\x7b" ++ joinComma (stringifyFields (sortByKey fs)) ++ "\x7d"
termination_by v => sizeOf v
decreasing_by
  all_goals simp [sizeOf_sortByKey]

/-- Serialized array elements, in order. -/
def stringifyArr : List JsonVal → List String
  | [] => []
  | x :: xs => stringifyDeterministicForHash x :: stringifyArr xs
termination_by xs => sizeOf xs
decreasing_by
  all_goals simp
  all_goals omega

/-- Serialized object fields, one "key":value fragment per field. -/
def stringifyFields : List (String × JsonVal) → List String
  | [] => []
  | (k, v) :: fs =>
      ("\"" ++ k ++ "\":" ++ stringifyDeterministicForHash v) :: stringifyFields fs
termination_by fs => sizeOf fs
decreasing_by
  all_goals simp
  all_goals omega
end

/-! ## SHA-256 (crypto createHash sha256, digest hex) over Nat bytes -/

/-- UTF-8 bytes of one character. -/
def utf8Bytes (c : Char) : List Nat :=
  let n := c.toNat
  if n < 128 then [n]
  else if n < 2048 then [192 + n / 64, 128 + n % 64]
  else if n < 65536 then [224 + n / 4096, 128 + n / 64 % 64, 128 + n % 64]
  else [240 + n / 262144, 128 + n / 4096 % 64, 128 + n / 64 % 64, 128 + n % 64]

/-- UTF-8 bytes of a string, the input that crypto.update receives. -/
def strBytes (s : String) : List Nat := s.toList.flatMap utf8Bytes

def w32 (n : Nat) : Nat := n % 4294967296

def rotr32 (n x : Nat) : Nat := w32 ((x >>> n) ||| (x <<< (32 - n)))

def bigSigma0 (x : Nat) : Nat := rotr32 2 x ^^^ rotr32 13 x ^^^ rotr32 22 x

def bigSigma1 (x : Nat) : Nat := rotr32 6 x ^^^ rotr32 11 x ^^^ rotr32 25 x

def smallSigma0 (x : Nat) : Nat := rotr32 7 x ^^^ rotr32 18 x ^^^ (x >>> 3)

def smallSigma1 (x : Nat) : Nat := rotr32 17 x ^^^ rotr32 19 x ^^^ (x >>> 10)

def chWord (x y z : Nat) : Nat := (x &&& y) ^^^ ((x ^^^ 4294967295) &&& z)

def majWord (x y z : Nat) : Nat := (x &&& y) ^^^ (x &&& z) ^^^ (y &&& z)

/-- Round constants K of SHA-256 (FIPS 180-4), written in decimal. -/
def sha256K : List Nat :=
  [1116352408, 1899447441, 3049323471, 3921009573, 961987163,
   1508970993, 2453635748, 2870763221, 3624381080, 310598401,
   607225278, 1426881987, 1925078388, 2162078206, 2614888103,
   3248222580, 3835390401, 4022224774, 264347078, 604807628,
   770255983, 1249150122, 1555081692, 1996064986, 2554220882,
   2821834349, 2952996808, 3210313671, 3336571891, 3584528711,
   113926993, 338241895, 666307205, 773529912, 1294757372,
   1396182291, 1695183700, 1986661051, 2177026350, 2456956037,
   2730485921, 2820302411, 3259730800, 3345764771, 3516065817,
   3600352804, 4094571909, 275423344, 430227734, 506948616,
   659060556, 883997877, 958139571, 1322822218, 1537002063,
   1747873779, 1955562222, 2024104815, 2227730452, 2361852424,
   2428436474, 2756734187, 3204031479, 3329325298]

/-- Message padding: append 0x80, zeros to 56 mod 64, then the 64-bit
big-endian bit length. -/
def sha256Pad (msg : List Nat) : List Nat :=
  let len := msg.length
  let bitLen := len * 8
  let padZeros := (119 - len % 64) % 64
  msg ++ [128] ++ List.replicate padZeros 0 ++
    (List.range 8).map (fun i => bitLen >>> ((7 - i) * 8) % 256)

/-- Big-endian 32-bit word at word index j of a 64-byte block. -/
def blockWord (block : List Nat) (j : Nat) : Nat :=
  block.getD (4 * j) 0 * 16777216 + block.getD (4 * j + 1) 0 * 65536 +
    block.getD (4 * j + 2) 0 * 256 + block.getD (4 * j + 3) 0

/-- The 64-entry message schedule of one block. -/
def sha256Schedule (block : List Nat) : Array Nat :=
  let w0 := (List.range 16).foldl (fun a j => a.push (blockWord block j)) #[]
  (List.range 48).foldl
    (fun a i =>
      let t := i + 16
      a.push (w32 (smallSigma1 (a.getD (t - 2) 0) + a.getD (t - 7) 0 +
        smallSigma0 (a.getD (t - 15) 0) + a.getD (t - 16) 0)))
    w0

/-- Eight-word SHA-256 state. -/
abbrev ShaState := Nat × Nat × Nat × Nat × Nat × Nat × Nat × Nat

def sha256Init : ShaState :=
  (1779033703, 3144134277, 1013904242, 2773480762,
   1359893119, 2600822924, 528734635, 1541459225)

/-- One compression of a 64-byte block into the running state. -/
def sha256Compress (h : ShaState) (block : List Nat) : ShaState :=
  let ws := sha256Schedule block
  let r := (List.range 64).foldl
    (fun (s : ShaState) t =>
      let t1 := w32 (s.2.2.2.2.2.2.2 + bigSigma1 s.2.2.2.2.1 +
        chWord s.2.2.2.2.1 s.2.2.2.2.2.1 s.2.2.2.2.2.2.1 +
        sha256K.getD t 0 + ws.getD t 0)
      let t2 := w32 (bigSigma0 s.1 + majWord s.1 s.2.1 s.2.2.1)
      (w32 (t1 + t2), s.1, s.2.1, s.2.2.1, w32 (s.2.2.2.1 + t1),
       s.2.2.2.2.1, s.2.2.2.2.2.1, s.2.2.2.2.2.2.1))
    h
  (w32 (h.1 + r.1), w32 (h.2.1 + r.2.1), w32 (h.2.2.1 + r.2.2.1),
   w32 (h.2.2.2.1 + r.2.2.2.1), w32 (h.2.2.2.2.1 + r.2.2.2.2.1),
   w32 (h.2.2.2.2.2.1 + r.2.2.2.2.2.1), w32 (h.2.2.2.2.2.2.1 + r.2.2.2.2.2.2.1),
   w32 (h.2.2.2.2.2.2.2 + r.2.2.2.2.2.2.2))

/-- Final eight words of the digest of a byte message. -/
def sha256Words (msg : List Nat) : ShaState :=
  let padded := sha256Pad msg
  (List.range (padded.length / 64)).foldl
    (fun h i => sha256Compress h ((padded.drop (64 * i)).take 64))
    sha256Init

/-- Big-endian bytes of the eight digest words. -/
def shaWordsToBytes (h : ShaState) : List Nat :=
  [h.1 / 16777216 % 256, h.1 / 65536 % 256, h.1 / 256 % 256, h.1 % 256,
   h.2.1 / 16777216 % 256, h.2.1 / 65536 % 256, h.2.1 / 256 % 256, h.2.1 % 256,
   h.2.2.1 / 16777216 % 256, h.2.2.1 / 65536 % 256, h.2.2.1 / 256 % 256,
   h.2.2.1 % 256,
   h.2.2.2.1 / 16777216 % 256, h.2.2.2.1 / 65536 % 256, h.2.2.2.1 / 256 % 256,
   h.2.2.2.1 % 256,
   h.2.2.2.2.1 / 16777216 % 256, h.2.2.2.2.1 / 65536 % 256,
   h.2.2.2.2.1 / 256 % 256, h.2.2.2.2.1 % 256,
   h.2.2.2.2.2.1 / 16777216 % 256, h.2.2.2.2.2.1 / 65536 % 256,
   h.2.2.2.2.2.1 / 256 % 256, h.2.2.2.2.2.1 % 256,
   h.2.2.2.2.2.2.1 / 16777216 % 256, h.2.2.2.2.2.2.1 / 65536 % 256,
   h.2.2.2.2.2.2.1 / 256 % 256, h.2.2.2.2.2.2.1 % 256,
   h.2.2.2.2.2.2.2 / 16777216 % 256, h.2.2.2.2.2.2.2 / 65536 % 256,
   h.2.2.2.2.2.2.2 / 256 % 256, h.2.2.2.2.2.2.2 % 256]

/-- Lowercase hex digit of a nibble. -/
def nibbleHex (n : Nat) : Char :=
  if n < 10 then Char.ofNat (48 + n) else Char.ofNat (87 + n % 16)

/-- Two lowercase hex digits of a byte. -/
def byteHex (b : Nat) : List Char := [nibbleHex (b / 16 % 16), nibbleHex (b % 16)]

/-- Lowercase hex string of a byte list (Buffer.toString hex). -/
def bytesToHexStr (bs : List Nat) : String := String.mk ((bs.map byteHex).flatten)

/-- SHA-256 hex digest of a string, as produced by
createHash(sha256).update(s).digest(hex). -/
def sha256Hex (s : String) : String := bytesToHexStr (shaWordsToBytes (sha256Words (strBytes s)))

/-! ## generateJobHash of utils/jobHash.ts -/

/-- DuplicateCheckFields of utils/jobHash.ts. -/
structure DuplicateCheckFields where
  name : String
  frequency : JobFrequency
  cronExpression : Option String
  data : JsonVal

/-- The runtime object passed to normalizeJobHashData by generateJobHash:
a four-key object in source-literal insertion order. -/
def fieldsToJson (f : DuplicateCheckFields) : JsonVal :=
  .jobj [("name", .jstr f.name),
         ("frequency", .jstr (freqEnumStr f.frequency)),
         ("cronExpression",
           match f.cronExpression with
           | none => .jnull
           | some c => .jstr c),
         ("data", f.data)]

/-- generateJobHash of utils/jobHash.ts. -/
def generateJobHash (f : DuplicateCheckFields) : String :=
  sha256Hex (stringifyDeterministicForHash (normalizeJobHashData (fieldsToJson f)))

/-! ## calculateNextRun of utils/scheduler.ts -/

/-- Milliseconds of one day; under UTC the JavaScript calendar-day step
setDate(getDate() + 1) is exactly this. -/
def msPerDay : Int := 86400000

/-- Civil date (year, month 1..12, day 1..31) of a day count since the epoch
(standard proleptic-Gregorian conversion). -/
def civilFromDays (z0 : Int) : Int × Int × Int :=
  let z := z0 + 719468
  let era := Int.fdiv z 146097
  let doe := z - era * 146097
  let yoe := Int.fdiv (doe - Int.fdiv doe 1460 + Int.fdiv doe 36524 - Int.fdiv doe 146096) 365
  let y := yoe + era * 400
  let doy := doe - (365 * yoe + Int.fdiv yoe 4 - Int.fdiv yoe 100)
  let mp := Int.fdiv (5 * doy + 2) 153
  let d := doy - Int.fdiv (153 * mp + 2) 5 + 1
  let m := if mp < 10 then mp + 3 else mp - 9
  (if m ≤ 2 then y + 1 else y, m, d)

/-- Day count since the epoch of a civil date; for day numbers beyond the
month length this extends linearly, exactly like JavaScript Date overflow
normalization. -/
def daysFromCivil (y0 m d : Int) : Int :=
  let y := if m ≤ 2 then y0 - 1 else y0
  let era := Int.fdiv y 400
  let yoe := y - era * 400
  let mp := if m > 2 then m - 3 else m + 9
  let doy := Int.fdiv (153 * mp + 2) 5 + d - 1
  let doe := yoe * 365 + Int.fdiv yoe 4 - Int.fdiv yoe 100 + doy
  era * 146097 + doe - 719468

/-- The JavaScript step setMonth(getMonth() + 1) on a UTC timestamp:
advance the civil month keeping the day number and time of day, with day
overflow spilling into the following month. -/
def addOneMonthJs (ms : Int) : Int :=
  let days := Int.fdiv ms msPerDay
  let rem := ms - days * msPerDay
  let c := civilFromDays days
  let y := c.1
  let m := c.2.1
  let d := c.2.2
  let y2 := if m == 12 then y + 1 else y
  let m2 := if m == 12 then 1 else m + 1
  daysFromCivil y2 m2 d * msPerDay + rem

/-- The slice of a job object that calculateNextRun reads.  `startDate` is an
Option because the service calls this function on partial update objects where
startDate may be undefined (an Invalid Date); `endDate`/`lastRunAt` are
Options because null and undefined are falsy in the source guards. -/
structure SchedInput where
  frequency : String
  cronExpression : Option String
  startDate : Option Int
  endDate : Option Int
  lastRunAt : Option Int

/-- Error message thrown for CUSTOM frequency without a cron expression. -/
def cronRequiredMsg : String := "Cron expression is required for custom frequency jobs"

/-- calculateNextRun of utils/scheduler.ts.  The first component is the
returned timestamp (or the thrown message); the second component records
whether the unknown-frequency warning branch ran. -/
def calculateNextRun (now : Int) (job : SchedInput) : Except String (Option Int) × Bool :=
  let startDate := job.startDate
  if (match job.endDate with
      | some e => decide (e < now)
      | none => false) then
    (.ok startDate, false)
  else if (match startDate with
      | some s => decide (s > now)
      | none => false) then
    (.ok startDate, false)
  else
    let nf := upAscii job.frequency
    if nf == "ONCE" then (.ok startDate, false)
    else
      let lastRun : Option Int :=
        match job.lastRunAt with
        | some l => some l
        | none => startDate
      if nf == "DAILY" then (.ok (lastRun.map (fun t => t + msPerDay)), false)
      else if nf == "WEEKLY" then (.ok (lastRun.map (fun t => t + 7 * msPerDay)), false)
      else if nf == "MONTHLY" then (.ok (lastRun.map addOneMonthJs), false)
      else if nf == "CUSTOM" then
        (match job.cronExpression with
         | some c => if c.isEmpty then (.error cronRequiredMsg, false) else (.ok startDate, false)
         | none => (.error cronRequiredMsg, false))
      else (.ok startDate, true)

/-! ## Service state: store rows, cache, queue (services/job.service.ts) -/

/-- A persisted row of the jobs table (db/schema.ts); status and frequency are
stored as their lowercase database strings. -/
structure DbRow where
  id : Nat
  name : String
  description : Option String
  statusS : String
  enabled : Bool
  frequencyS : String
  cronExpression : Option String
  startDate : Int
  endDate : Option Int
  lastRunAt : Option Int
  nextRunAt : Option Int
  data : JsonVal
  dataHash : String
  retryCount : Nat
  maxRetries : Nat
  createdAt : Int
  updatedAt : Int

/-- The application-level Job of types/job.ts, as produced by mapDbRowToJob. -/
structure Job where
  id : Nat
  name : String
  description : Option String
  status : JobStatus
  enabled : Bool
  frequency : JobFrequency
  cronExpression : Option String
  startDate : Int
  endDate : Option Int
  lastRunAt : Option Int
  nextRunAt : Option Int
  data : JsonVal
  dataHash : String
  retryCount : Nat
  maxRetries : Nat
  createdAt : Int
  updatedAt : Int

/-- mapDbRowToJob of services/job.service.ts. -/
def mapDbRowToJob (r : DbRow) : Job :=
  { id := r.id, name := r.name, description := r.description,
    status := dbStringToStatus r.statusS, enabled := r.enabled,
    frequency := dbStringToFrequency r.frequencyS,
    cronExpression := r.cronExpression, startDate := r.startDate,
    endDate := r.endDate, lastRunAt := r.lastRunAt, nextRunAt := r.nextRunAt,
    data := r.data, dataHash := r.dataHash, retryCount := r.retryCount,
    maxRetries := r.maxRetries, createdAt := r.createdAt,
    updatedAt := r.updatedAt }

/-- mapDbRowToJob applied to an already-mapped Job (the source reapplies it to
cached snapshots and to its own inputs): the enum fields round-trip through
their enum string values. -/
def remapJob (j : Job) : Job :=
  { j with status := dbStringToStatus (statusEnumStr j.status),
           frequency := dbStringToFrequency (freqEnumStr j.frequency) }

/-- Cache key families used by the service.  The Redis glob job:* of
invalidateAllJobCaches matches both the job:id family and the
job:duplicate:hash family, which the structural model mirrors. -/
inductive CacheKey where
  | jobId (id : Nat) : CacheKey
  | jobsAll (rest : String) : CacheKey
  | jobsUpcoming (rest : String) : CacheKey
  | dup (hash : String) : CacheKey
deriving DecidableEq

/-- Schedule attached to a queue submission. -/
inductive QueueSchedule where
  | oneShot (delayMs : Int) : QueueSchedule
  | repeatPattern (cron : String) : QueueSchedule
deriving DecidableEq

/-- An entry of the BullMQ work queue, keyed by the job id that the source
encodes in the name job-{id} and the jobId option. -/
structure QueueEntry where
  jobId : Nat
  schedule : QueueSchedule
deriving DecidableEq

/-- The state visible to the service: persisted rows, the next serial id, the
cache (key, job snapshot, TTL seconds) and the work queue. -/
structure SysState where
  rows : List DbRow
  nextId : Nat
  cache : List (CacheKey × Job × Nat)
  queue : List QueueEntry

/-- Redis GET: first binding of the key. -/
def cacheGet (c : List (CacheKey × Job × Nat)) (k : CacheKey) : Option Job :=
  (c.find? (fun kv => kv.1 == k)).map (fun kv => kv.2.1)

/-- Redis SETEX: bind the key (shadowing any previous binding). -/
def cacheSet (c : List (CacheKey × Job × Nat)) (k : CacheKey) (j : Job)
    (ttl : Nat) : List (CacheKey × Job × Nat) :=
  (k, j, ttl) :: c

/-- invalidateJobListCaches of services/cache.service.ts: delete the
jobs:all:* and jobs:upcoming:* families. -/
def invalidateJobListCaches (c : List (CacheKey × Job × Nat)) :
    List (CacheKey × Job × Nat) :=
  c.filter (fun kv =>
    match kv.1 with
    | .jobsAll _ => false
    | .jobsUpcoming _ => false
    | _ => true)

/-- invalidateAllJobCaches of services/cache.service.ts: delete job:*,
jobs:all:*, jobs:upcoming:* (and job:duplicate:*, which job:* already
matches). -/
def invalidateAllJobCaches (c : List (CacheKey × Job × Nat)) :
    List (CacheKey × Job × Nat) :=
  c.filter (fun kv =>
    match kv.1 with
    | .jobId _ => false
    | .jobsAll _ => false
    | .jobsUpcoming _ => false
    | .dup _ => false)

/-- queue.removeJobScheduler(job-id): drop the entries of this job. -/
def removeJobScheduler (q : List QueueEntry) (id : Nat) : List QueueEntry :=
  q.filter (fun e => !(e.jobId == id))

/-- getCronExpression of services/job.service.ts (an empty stored expression
is falsy and falls through to the frequency defaults). -/
def getCronExpression (job : Job) : Option String :=
  match job.cronExpression with
  | some c =>
      if c.isEmpty then
        (match job.frequency with
         | .DAILY => some "0 0 * * *"
         | .WEEKLY => some "0 0 * * 0"
         | .MONTHLY => some "0 0 1 * *"
         | _ => none)
      else some c
  | none =>
      match job.frequency with
      | .DAILY => some "0 0 * * *"
      | .WEEKLY => some "0 0 * * 0"
      | .MONTHLY => some "0 0 1 * *"
      | _ => none

/-- The SchedInput slice of a full Job. -/
def schedOfJob (j : Job) : SchedInput :=
  { frequency := freqEnumStr j.frequency, cronExpression := j.cronExpression,
    startDate := some j.startDate, endDate := j.endDate,
    lastRunAt := j.lastRunAt }

/-- scheduleJob of services/job.service.ts: skip disabled jobs; one-time jobs
are queued only with a strictly positive delay; recurring jobs are queued iff
a cron pattern is available. -/
def scheduleJob (now : Int) (st : SysState) (job : Job) : Except String SysState :=
  let safeJob := remapJob job
  if !safeJob.enabled then .ok st
  else
    match (calculateNextRun now (schedOfJob safeJob)).1 with
    | .error m => .error m
    | .ok nextRunAt =>
      if safeJob.frequency == .ONCE then
        match nextRunAt with
        | some t =>
            if t - now > 0 then
              .ok { st with queue := st.queue ++ [⟨safeJob.id, .oneShot (t - now)⟩] }
            else .ok st
        | none => .ok st
      else
        match getCronExpression safeJob with
        | some c => .ok { st with queue := st.queue ++ [⟨safeJob.id, .repeatPattern c⟩] }
        | none => .ok st

/-! ## checkForDuplicate of services/job.service.ts -/

/-- Fixed per-query deadline (Promise.race with a 5000 ms timer). -/
def dupQueryTimeoutMs : Nat := 5000

/-- TTL of duplicate-cache entries: CACHE_TTL.INDIVIDUAL_JOB * 96 seconds. -/
def dupCacheTtlSeconds : Nat := 900 * 96

/-- Backoff delay before retrying attempt + 1: 100 ms doubled per attempt. -/
def backoffDelayMs (attempt : Nat) : Nat := 2 ^ (attempt - 1) * 100

/-- The store predicate of the duplicate query: name, frequency string,
cronExpression by null-aware equality (isNull versus eq), and dataHash. -/
def dupPred (f : DuplicateCheckFields) (hash : String) (r : DbRow) : Bool :=
  r.name == f.name &&
  r.frequencyS == frequencyToDbString f.frequency &&
  (match f.cronExpression with
   | none => r.cronExpression == none
   | some c => r.cronExpression == some c) &&
  r.dataHash == hash

/-- The retry loop of checkForDuplicate, attempts numbered from 1 up to 3.
Result: some (query outcome) when an attempt succeeded, none when every
attempt raised; plus the number of attempts made and the backoff delays
slept. -/
def dupCheckGo (rows : List DbRow) (p : DbRow → Bool) (ok : Nat → Bool) :
    Nat → Nat → Option (Option DbRow) × Nat × List Nat
  | _, 0 => (none, 0, [])
  | attempt, fuel + 1 =>
      if ok attempt then (some (rows.find? p), attempt, [])
      else if attempt < 3 then
        let r := dupCheckGo rows p ok (attempt + 1) fuel
        (r.1, r.2.1, backoffDelayMs attempt :: r.2.2)
      else (none, attempt, [])

/-- Observable trace of one checkForDuplicate run. -/
structure DupTrace where
  attemptsMade : Nat
  delaysMs : List Nat
  timeoutPerQueryMs : Nat
deriving DecidableEq

/-- checkForDuplicate of services/job.service.ts: cache first; on a miss, up
to 3 store attempts with exponential backoff; on a hit from the store, cache
the snapshot for 86400 seconds; if every attempt raises, fail open and return
null. -/
def checkForDuplicate (st : SysState) (ok : Nat → Bool)
    (f : DuplicateCheckFields) : Option Job × SysState × DupTrace :=
  let hash := generateJobHash f
  let key := CacheKey.dup hash
  match cacheGet st.cache key with
  | some j => (some (remapJob j), st, ⟨0, [], dupQueryTimeoutMs⟩)
  | none =>
      match dupCheckGo st.rows (dupPred f hash) ok 1 3 with
      | (some (some r), a, ds) =>
          let j := mapDbRowToJob r
          (some j,
           { st with cache := cacheSet st.cache key j dupCacheTtlSeconds },
           ⟨a, ds, dupQueryTimeoutMs⟩)
      | (some none, a, ds) => (none, st, ⟨a, ds, dupQueryTimeoutMs⟩)
      | (none, a, ds) => (none, st, ⟨a, ds, dupQueryTimeoutMs⟩)

/-! ## createJob of services/job.service.ts -/

/-- The jobData argument of createJob (Omit of id, createdAt, updatedAt,
dataHash); status is optional because the source defends with
jobData.status or PENDING. -/
structure CreateJobData where
  name : String
  description : Option String
  status : Option JobStatus
  enabled : Bool
  frequency : JobFrequency
  cronExpression : Option String
  startDate : Int
  endDate : Option Int
  lastRunAt : Option Int
  nextRunAt : Option Int
  data : JsonVal
  retryCount : Nat
  maxRetries : Nat

/-- The DuplicateCheckFields slice that createJob extracts. -/
def dupFieldsOf (jd : CreateJobData) : DuplicateCheckFields :=
  { name := jd.name, frequency := jd.frequency,
    cronExpression := jd.cronExpression, data := jd.data }

/-- The SchedInput slice of the jobData object (calculateNextRun is called on
jobData cast to Job when building insertData). -/
def schedOfCreate (jd : CreateJobData) : SchedInput :=
  { frequency := freqEnumStr jd.frequency, cronExpression := jd.cronExpression,
    startDate := some jd.startDate, endDate := jd.endDate,
    lastRunAt := jd.lastRunAt }

/-- Failures observable from createJob. -/
inductive CreateError where
  | duplicateJob (existingJob : Job) : CreateError
  | uniqueViolation : CreateError
  | raised (msg : String) : CreateError

/-- Postgres unique-index conflict on (name, frequency, cron_expression,
data_hash): NULLs are distinct, so a conflict needs both cron expressions
non-null and equal. -/
def insertConflicts (rows : List DbRow) (name freqS : String)
    (cron : Option String) (hash : String) : Bool :=
  rows.any (fun r =>
    r.name == name && r.frequencyS == freqS &&
    (match r.cronExpression, cron with
     | some a, some b => a == b
     | _, _ => false) &&
    r.dataHash == hash)

/-- The row that createJob inserts: insertData of the source, with the
serial id and the server-assigned timestamps of the model. -/
def mkCreatedRow (now : Int) (st : SysState) (jd : CreateJobData)
    (nextRun : Option Int) (hash : String) : DbRow :=
  { id := st.nextId, name := jd.name, description := jd.description,
    statusS := convertStatusToDbString (jd.status.getD .PENDING),
    enabled := jd.enabled,
    frequencyS := frequencyToDbString jd.frequency,
    cronExpression := jd.cronExpression, startDate := jd.startDate,
    endDate := jd.endDate, lastRunAt := jd.lastRunAt,
    nextRunAt := nextRun, data := jd.data, dataHash := hash,
    retryCount := jd.retryCount, maxRetries := jd.maxRetries,
    createdAt := now, updatedAt := now }

/-- The insert-and-after part of createJob (after the optional duplicate
check): compute the hash and nextRunAt, insert, seed the duplicate cache,
schedule, invalidate list caches.  A raised error discards the intermediate
state, which no claim observes. -/
def createRest (now : Int) (st : SysState) (jd : CreateJobData) :
    Except CreateError (Job × SysState) :=
  let hash := generateJobHash (dupFieldsOf jd)
  match (calculateNextRun now (schedOfCreate jd)).1 with
  | .error m => .error (.raised m)
  | .ok nextRun =>
      if insertConflicts st.rows jd.name (frequencyToDbString jd.frequency)
          jd.cronExpression hash then
        .error .uniqueViolation
      else
        let row := mkCreatedRow now st jd nextRun hash
        let st2 : SysState :=
          { st with rows := st.rows ++ [row], nextId := st.nextId + 1 }
        let safeJob := mapDbRowToJob row
        let st3 : SysState :=
          { st2 with cache := cacheSet st2.cache (.dup hash) safeJob dupCacheTtlSeconds }
        match scheduleJob now st3 safeJob with
        | .error m => .error (.raised m)
        | .ok st4 =>
            .ok (safeJob, { st4 with cache := invalidateJobListCaches st4.cache })

/-- createJob of services/job.service.ts.  Unless forceCreate is set, a
duplicate found by checkForDuplicate raises a DUPLICATE_JOB error carrying
the existing job. -/
def createJob (now : Int) (st : SysState) (ok : Nat → Bool)
    (jd : CreateJobData) (forceCreate : Bool) :
    Except CreateError (Job × SysState) :=
  if forceCreate then createRest now st jd
  else
    match checkForDuplicate st ok (dupFieldsOf jd) with
    | (some existing, _, _) => .error (.duplicateJob existing)
    | (none, st1, _) => createRest now st1 jd

/-! ## updateJob, enableJob, disableJob of services/job.service.ts -/

/-- Partial of Job as accepted by updateJob.  A single Option layer marks an
absent field; doubly optional fields distinguish absent from an explicit
null. -/
structure UpdatePayload where
  name : Option String := none
  description : Option (Option String) := none
  status : Option JobStatus := none
  enabled : Option Bool := none
  frequency : Option JobFrequency := none
  cronExpression : Option (Option String) := none
  startDate : Option Int := none
  endDate : Option (Option Int) := none
  lastRunAt : Option (Option Int) := none
  nextRunAt : Option (Option Int) := none
  data : Option JsonVal := none
  retryCount : Option Nat := none
  maxRetries : Option Nat := none

/-- The SchedInput that calculateNextRun(jobData as Job) sees when updateJob
recomputes nextRunAt from the partial update object alone: absent startDate is
an Invalid Date and absent endDate, lastRunAt and cronExpression are
undefined. -/
def schedOfPayload (fr : JobFrequency) (p : UpdatePayload) : SchedInput :=
  { frequency := freqEnumStr fr, cronExpression := p.cronExpression.join,
    startDate := p.startDate, endDate := p.endDate.join,
    lastRunAt := p.lastRunAt.join }

/-- The updated row: spread of the payload over the row, updatedAt set to
now, enum fields converted when present, and nextRunAt overwritten with the
partial recomputation exactly when the payload carries a frequency (nrOpt is
that precomputed value).  An Invalid recomputed date is conflated with NULL
in the stored column. -/
def applyPayloadRow (now : Int) (r : DbRow) (p : UpdatePayload)
    (nrOpt : Option (Option Int)) : DbRow :=
  let base : DbRow :=
    { r with
      name := p.name.getD r.name,
      description := p.description.getD r.description,
      statusS := match p.status with
                 | some s => convertStatusToDbString s
                 | none => r.statusS,
      enabled := p.enabled.getD r.enabled,
      cronExpression := p.cronExpression.getD r.cronExpression,
      startDate := p.startDate.getD r.startDate,
      endDate := p.endDate.getD r.endDate,
      lastRunAt := p.lastRunAt.getD r.lastRunAt,
      nextRunAt := p.nextRunAt.getD r.nextRunAt,
      data := p.data.getD r.data,
      retryCount := p.retryCount.getD r.retryCount,
      maxRetries := p.maxRetries.getD r.maxRetries,
      updatedAt := now }
  match p.frequency, nrOpt with
  | some fr, some nr =>
      { base with frequencyS := frequencyToDbString fr, nextRunAt := nr }
  | _, _ => base

/-- updateJob of services/job.service.ts: build updateData (recomputing
nextRunAt from the partial object iff a frequency is present, which can
throw), apply the row update by id, then remove the queue entries, invalidate
the caches and reschedule.  Returns none when the id does not exist. -/
def updateJob (now : Int) (st : SysState) (id : Nat) (p : UpdatePayload) :
    Except String (Option (Job × SysState)) :=
  match (match p.frequency with
         | some fr =>
             (match (calculateNextRun now (schedOfPayload fr p)).1 with
              | .error m => .error m
              | .ok nr => .ok (some nr) : Except String (Option (Option Int)))
         | none => .ok none) with
  | .error m => .error m
  | .ok nrOpt =>
      match st.rows.find? (fun r => r.id == id) with
      | none => .ok none
      | some r =>
          let r2 := applyPayloadRow now r p nrOpt
          let st1 : SysState :=
            { st with rows := st.rows.map (fun row => if row.id == id then r2 else row) }
          let st2 : SysState := { st1 with queue := removeJobScheduler st1.queue id }
          let st3 : SysState := { st2 with cache := invalidateAllJobCaches st2.cache }
          let safeJob := mapDbRowToJob r2
          match scheduleJob now st3 safeJob with
          | .error m => .error m
          | .ok st4 => .ok (some (safeJob, st4))

/-- enableJob of services/job.service.ts: set enabled and updatedAt only,
invalidate caches, and call scheduleJob iff the mapped status is PENDING.
Returns none when the id does not exist. -/
def enableJob (now : Int) (st : SysState) (id : Nat) :
    Except String (Option (Job × SysState)) :=
  match st.rows.find? (fun r => r.id == id) with
  | none => .ok none
  | some r =>
      let r2 : DbRow := { r with enabled := true, updatedAt := now }
      let st1 : SysState :=
        { st with rows := st.rows.map (fun row => if row.id == id then r2 else row) }
      let st2 : SysState := { st1 with cache := invalidateAllJobCaches st1.cache }
      let safeJob := mapDbRowToJob r2
      if safeJob.status == .PENDING then
        match scheduleJob now st2 safeJob with
        | .error m => .error m
        | .ok st3 => .ok (some (safeJob, st3))
      else .ok (some (safeJob, st2))

/-- disableJob of services/job.service.ts: set enabled and updatedAt only,
remove the queue entries, invalidate caches.  Returns none when the id does
not exist. -/
def disableJob (now : Int) (st : SysState) (id : Nat) :
    Option (Job × SysState) :=
  match st.rows.find? (fun r => r.id == id) with
  | none => none
  | some r =>
      let r2 : DbRow := { r with enabled := false, updatedAt := now }
      let st1 : SysState :=
        { st with rows := st.rows.map (fun row => if row.id == id then r2 else row) }
      let st2 : SysState := { st1 with queue := removeJobScheduler st1.queue id }
      let st3 : SysState := { st2 with cache := invalidateAllJobCaches st2.cache }
      some (mapDbRowToJob r2, st3)

/-! ## Helper lemmas -/

theorem remapJob_eq (j : Job) : remapJob j = j := by
  obtain ⟨i, nm, de, s, en, fr, cr, sd, ed, lr, nr, da, dh, rc, mr, ca, ua⟩ := j
  cases s <;> cases fr <;> rfl

theorem dbStringToFrequency_roundtrip (fr : JobFrequency) :
    dbStringToFrequency (frequencyToDbString fr) = fr := by
  cases fr <;> rfl

theorem cacheGet_cons (k : CacheKey) (j : Job) (t : Nat)
    (rest : List (CacheKey × Job × Nat)) (key : CacheKey) :
    cacheGet ((k, j, t) :: rest) key =
      if k == key then some j else cacheGet rest key := by
  by_cases h : (k == key)
  · simp [cacheGet, List.find?_cons_of_pos, h]
  · simp [cacheGet, List.find?_cons_of_neg, h]

theorem scheduleJob_shape (now : Int) (st : SysState) (j : Job) (v : Option Int)
    (h : (calculateNextRun now (schedOfJob j)).1 = Except.ok v) :
    ∃ st2, scheduleJob now st j = .ok st2 ∧ st2.rows = st.rows ∧
      st2.cache = st.cache ∧ st2.nextId = st.nextId := by
  simp only [scheduleJob, remapJob_eq, h]
  by_cases he : j.enabled
  · simp only [he, Bool.not_true, Bool.false_eq_true, if_false]
    by_cases hf : j.frequency == JobFrequency.ONCE
    · simp only [hf, if_true]
      cases v with
      | none => exact ⟨st, rfl, rfl, rfl, rfl⟩
      | some t =>
          by_cases hd : t - now > 0
          · simp only [hd, if_true]
            exact ⟨_, rfl, rfl, rfl, rfl⟩
          · simp only [hd, if_false]
            exact ⟨st, rfl, rfl, rfl, rfl⟩
    · simp only [hf, Bool.false_eq_true, if_false]
      cases hc : getCronExpression j with
      | some c => simp only [hc]; exact ⟨_, rfl, rfl, rfl, rfl⟩
      | none => simp only [hc]; exact ⟨st, rfl, rfl, rfl, rfl⟩
  · simp only [he, Bool.not_false, if_true]
    exact ⟨st, rfl, rfl, rfl, rfl⟩

theorem cacheGet_invalidateJobListCaches_dup (c : List (CacheKey × Job × Nat))
    (h : String) :
    cacheGet (invalidateJobListCaches c) (.dup h) = cacheGet c (.dup h) := by
  induction c with
  | nil => rfl
  | cons kv rest ih =>
      obtain ⟨k, j, t⟩ := kv
      cases k with
      | jobId i =>
          have hk : (CacheKey.jobId i == CacheKey.dup h) = false := by
            rw [beq_eq_false_iff_ne]
            intro hEq
            exact CacheKey.noConfusion hEq
          simp [invalidateJobListCaches, cacheGet_cons, hk] at ih ⊢
          exact ih
      | jobsAll r =>
          have hk : (CacheKey.jobsAll r == CacheKey.dup h) = false := by
            rw [beq_eq_false_iff_ne]
            intro hEq
            exact CacheKey.noConfusion hEq
          simp [invalidateJobListCaches, cacheGet_cons, hk] at ih ⊢
          exact ih
      | jobsUpcoming r =>
          have hk : (CacheKey.jobsUpcoming r == CacheKey.dup h) = false := by
            rw [beq_eq_false_iff_ne]
            intro hEq
            exact CacheKey.noConfusion hEq
          simp [invalidateJobListCaches, cacheGet_cons, hk] at ih ⊢
          exact ih
      | dup hh =>
          simp only [invalidateJobListCaches, List.filter]
          simp only [cacheGet_cons]
          by_cases hk : (CacheKey.dup hh == CacheKey.dup h)
          · simp [hk]
          · simp only [hk, if_false]
            simpa [invalidateJobListCaches] using ih

/-! ## Claim C10 -/

/-- Claim C10: the status mapping round-trip is lossy only for CANCELLED.
For PENDING, RUNNING, COMPLETED and FAILED, reading back the stored string
(dbStringToStatus after convertStatusToDbString) returns the status itself;
CANCELLED is stored as the string failed, reads back as FAILED, and therefore
becomes indistinguishable from FAILED after persistence. -/
theorem statusRoundTripLossyOnlyForCancelled :
    dbStringToStatus (convertStatusToDbString .PENDING) = .PENDING ∧
    dbStringToStatus (convertStatusToDbString .RUNNING) = .RUNNING ∧
    dbStringToStatus (convertStatusToDbString .COMPLETED) = .COMPLETED ∧
    dbStringToStatus (convertStatusToDbString .FAILED) = .FAILED ∧
    convertStatusToDbString .CANCELLED = "failed" ∧
    dbStringToStatus (convertStatusToDbString .CANCELLED) = .FAILED ∧
    convertStatusToDbString .CANCELLED = convertStatusToDbString .FAILED :=
  ⟨rfl, rfl, rfl, rfl, rfl, rfl, rfl⟩

/-! ## Claim C7 -/

/-- Claim C7: concrete schedule-calculator cases, for any evaluation instant
after 2024-01-06.  A DAILY job with startDate 2024-01-01, no endDate and
lastRunAt 2024-01-05 yields 2024-01-06; a ONCE job with a future startDate
yields exactly its startDate; a job whose endDate lies in the past yields its
startDate (a value, not an error). -/
theorem calculateNextRunConcreteCases :
    (∀ now : Int, 1704499200000 < now →
      (calculateNextRun now
        { frequency := "DAILY", cronExpression := none,
          startDate := some 1704067200000, endDate := none,
          lastRunAt := some 1704412800000 }).1 = .ok (some 1704499200000)) ∧
    (∀ (now : Int) (j : Job), j.frequency = .ONCE → now < j.startDate →
      (calculateNextRun now (schedOfJob j)).1 = .ok (some j.startDate)) ∧
    (∀ (now : Int) (j : Job) (e : Int), j.endDate = some e → e < now →
      (calculateNextRun now (schedOfJob j)).1 = .ok (some j.startDate)) := by
  refine ⟨?_, ?_, ?_⟩
  · intro now hnow
    have h1 : ¬ ((1704067200000 : Int) > now) := by omega
    have hA : upAscii "DAILY" = "DAILY" := rfl
    have hB : upAscii "DAILY" ≠ "ONCE" := by decide
    simp [calculateNextRun, h1, msPerDay, hA, hB]
  · intro now j hf hs
    simp only [calculateNextRun, schedOfJob, hf]
    cases he : j.endDate with
    | some e =>
        by_cases hend : e < now
        · simp [hend]
        · simp [hend, hs]
    | none => simp [hs]
  · intro now j e he hlt
    simp [calculateNextRun, schedOfJob, he, hlt]

/-- Witness for C7 at concrete inputs. -/
theorem calculateNextRunConcreteCasesWitness :
    (calculateNextRun 1704499200001
      { frequency := "DAILY", cronExpression := none,
        startDate := some 1704067200000, endDate := none,
        lastRunAt := some 1704412800000 }).1 = .ok (some 1704499200000) :=
  calculateNextRunConcreteCases.1 1704499200001 (by omega)

/-! ## Claim C9 -/

/-- Claim C9: an unrecognized frequency value (not ONCE, DAILY, WEEKLY,
MONTHLY or CUSTOM after uppercase normalization), with a startDate in the
past and no past endDate, does not raise: the warning branch runs, the job is
treated as ONCE, and startDate is returned. -/
theorem calculateNextRunUnknownFrequencyFallback
    (now : Int) (si : SchedInput) (s : Int)
    (hs : si.startDate = some s) (hpast : s ≤ now)
    (hend : ∀ e, si.endDate = some e → ¬ e < now)
    (hunk : upAscii si.frequency ≠ "ONCE" ∧ upAscii si.frequency ≠ "DAILY" ∧
      upAscii si.frequency ≠ "WEEKLY" ∧ upAscii si.frequency ≠ "MONTHLY" ∧
      upAscii si.frequency ≠ "CUSTOM") :
    calculateNextRun now si = (.ok (some s), true) := by
  obtain ⟨h1, h2, h3, h4, h5⟩ := hunk
  have hgt : ¬ (s > now) := by omega
  simp only [calculateNextRun, hs]
  cases he : si.endDate with
  | some e =>
      have := hend e he
      simp [this, hgt, beq_eq_false_iff_ne.mpr h1, beq_eq_false_iff_ne.mpr h2,
        beq_eq_false_iff_ne.mpr h3, beq_eq_false_iff_ne.mpr h4,
        beq_eq_false_iff_ne.mpr h5]
  | none =>
      simp [hgt, beq_eq_false_iff_ne.mpr h1, beq_eq_false_iff_ne.mpr h2,
        beq_eq_false_iff_ne.mpr h3, beq_eq_false_iff_ne.mpr h4,
        beq_eq_false_iff_ne.mpr h5]

/-- Witness for C9: the frequency string yearly is unrecognized; with
startDate 0 in the past and no endDate the calculator returns startDate and
reports the warning branch. -/
theorem calculateNextRunUnknownFrequencyFallbackWitness :
    calculateNextRun 5
      { frequency := "yearly", cronExpression := none, startDate := some 0,
        endDate := none, lastRunAt := none } = (.ok (some 0), true) :=
  calculateNextRunUnknownFrequencyFallback 5
    { frequency := "yearly", cronExpression := none, startDate := some 0,
      endDate := none, lastRunAt := none } 0 rfl (by omega)
    (by intro e he; exact Option.noConfusion he)
    (by refine ⟨?_, ?_, ?_, ?_, ?_⟩ <;> decide)

/-! ## Claim C3: fingerprint determinism and shape -/

/-- Lowercase hexadecimal digit predicate. -/
def isLowerHexDigit (c : Char) : Bool :=
  (c.toNat ≥ 48 && c.toNat ≤ 57) || (c.toNat ≥ 97 && c.toNat ≤ 102)

theorem nibbleHex_isHex (n : Nat) (hn : n < 16) :
    isLowerHexDigit (nibbleHex n) = true := by
  interval_cases n <;> rfl

theorem byteHex_isHex (b : Nat) : ∀ c ∈ byteHex b, isLowerHexDigit c = true := by
  intro c hc
  simp only [byteHex, List.mem_cons, List.mem_singleton] at hc
  rcases hc with h | h | h
  · subst h; exact nibbleHex_isHex _ (Nat.mod_lt _ (by omega))
  · subst h; exact nibbleHex_isHex _ (Nat.mod_lt _ (by omega))
  · cases h

theorem bytesToHexStr_length (bs : List Nat) :
    (bytesToHexStr bs).length = 2 * bs.length := by
  induction bs with
  | nil => rfl
  | cons b rest ih =>
      simp only [bytesToHexStr, List.map_cons, List.flatten_cons, byteHex,
        String.length_mk, List.length_append, List.length_cons,
        List.length_nil] at ih ⊢
      omega

theorem bytesToHexStr_chars (bs : List Nat) :
    ∀ c ∈ (bytesToHexStr bs).toList, isLowerHexDigit c = true := by
  intro c hc
  have hc2 : c ∈ (bs.map byteHex).flatten := hc
  rw [List.mem_flatten] at hc2
  obtain ⟨l, hl, hcl⟩ := hc2
  rw [List.mem_map] at hl
  obtain ⟨b, _, hb⟩ := hl
  subst hb
  exact byteHex_isHex b c hcl

theorem shaWordsToBytes_length (h : ShaState) : (shaWordsToBytes h).length = 32 := rfl

theorem sha256Hex_length (s : String) : (sha256Hex s).length = 64 := by
  unfold sha256Hex
  rw [bytesToHexStr_length, shaWordsToBytes_length]

theorem sha256Hex_chars (s : String) :
    ∀ c ∈ (sha256Hex s).toList, isLowerHexDigit c = true := by
  unfold sha256Hex
  exact bytesToHexStr_chars _

theorem normalizeJobHashData_fieldsToJson (f : DuplicateCheckFields) :
    normalizeJobHashData (fieldsToJson f) =
      .jobj (sortByKey
        [("name", .jstr (jsTrim f.name)),
         ("frequency", .jstr (jsTrim (freqEnumStr f.frequency))),
         ("cronExpression",
           match f.cronExpression with
           | none => JsonVal.jnull
           | some c => JsonVal.jstr (jsTrim c)),
         ("data", normalizeJobHashData f.data)]) := by
  cases hc : f.cronExpression with
  | none => simp [fieldsToJson, normalizeJobHashData, normalizeFields, hc]
  | some c => simp [fieldsToJson, normalizeJobHashData, normalizeFields, hc]

/-- Claim C3: generateJobHash is determined by (name, frequency,
cronExpression) and the normalized form of data (object keys sorted at every
level, string values trimmed, null and undefined collapsed, array order
preserved), and its value is a 64-character lowercase hexadecimal string. -/
theorem generateJobHashDeterministicHex (f1 f2 : DuplicateCheckFields)
    (hname : f1.name = f2.name) (hfreq : f1.frequency = f2.frequency)
    (hcron : f1.cronExpression = f2.cronExpression)
    (hdata : normalizeJobHashData f1.data = normalizeJobHashData f2.data) :
    generateJobHash f1 = generateJobHash f2 ∧
    (generateJobHash f1).length = 64 ∧
    ∀ c ∈ (generateJobHash f1).toList, isLowerHexDigit c = true := by
  refine ⟨?_, sha256Hex_length _, sha256Hex_chars _⟩
  unfold generateJobHash
  rw [normalizeJobHashData_fieldsToJson, normalizeJobHashData_fieldsToJson,
    hname, hfreq, hcron, hdata]

/-- Witness for C3: two field-sets whose data objects differ in key order and
string whitespace fingerprint identically, and the digest is 64 lowercase hex
characters. -/
theorem generateJobHashDeterministicHexWitness :
    generateJobHash
      { name := "report", frequency := .DAILY, cronExpression := none,
        data := .jobj [("b", .jstr "x "), ("a", .jnull)] } =
    generateJobHash
      { name := "report", frequency := .DAILY, cronExpression := none,
        data := .jobj [("a", .jnull), ("b", .jstr " x")] } ∧
    (generateJobHash
      { name := "report", frequency := .DAILY, cronExpression := none,
        data := .jobj [("b", .jstr "x "), ("a", .jnull)] }).length = 64 ∧
    ∀ c ∈ (generateJobHash
      { name := "report", frequency := .DAILY, cronExpression := none,
        data := .jobj [("b", .jstr "x "), ("a", .jnull)] }).toList,
      isLowerHexDigit c = true :=
  generateJobHashDeterministicHex _ _ rfl rfl rfl
    (by simp only [normalizeJobHashData, normalizeFields]; rfl)

/-! ## Claim C6: the duplicate-lookup algorithm -/

/-- Claim C6: on a duplicate-cache miss, checkForDuplicate queries the store
for an exact (name, frequency, cronExpression, dataHash) match with
null-aware cron equality, under a fixed 5000 ms per-query deadline and at
most 3 attempts whose backoff delays double; a found match is returned after
being cached with an 86400-second TTL, and a successful empty query yields
null. -/
theorem checkForDuplicateStoreLookupAlgorithm
    (st : SysState) (ok : Nat → Bool) (f : DuplicateCheckFields)
    (hmiss : cacheGet st.cache (.dup (generateJobHash f)) = none) :
    (∀ r : DbRow, dupPred f (generateJobHash f) r = true ↔
      (r.name = f.name ∧ r.frequencyS = frequencyToDbString f.frequency ∧
       r.cronExpression = f.cronExpression ∧ r.dataHash = generateJobHash f)) ∧
    (∀ r : DbRow, ok 1 = true →
      st.rows.find? (dupPred f (generateJobHash f)) = some r →
      checkForDuplicate st ok f =
        (some (mapDbRowToJob r),
         { st with cache := cacheSet st.cache (.dup (generateJobHash f))
                     (mapDbRowToJob r) dupCacheTtlSeconds },
         ⟨1, [], dupQueryTimeoutMs⟩)) ∧
    (ok 1 = true → st.rows.find? (dupPred f (generateJobHash f)) = none →
      checkForDuplicate st ok f = (none, st, ⟨1, [], dupQueryTimeoutMs⟩)) ∧
    dupQueryTimeoutMs = 5000 ∧
    dupCacheTtlSeconds = 86400 ∧
    (∀ a, 1 ≤ a → backoffDelayMs (a + 1) = 2 * backoffDelayMs a) ∧
    (checkForDuplicate st ok f).2.2.attemptsMade ≤ 3 ∧
    (ok 1 = false → ok 2 = false → ok 3 = false →
      checkForDuplicate st ok f =
        (none, st, ⟨3, [backoffDelayMs 1, backoffDelayMs 2], dupQueryTimeoutMs⟩)) := by
  refine ⟨?_, ?_, ?_, rfl, rfl, ?_, ?_, ?_⟩
  · intro r
    unfold dupPred
    cases hc : f.cronExpression with
    | none => simp [hc]; tauto
    | some c => simp [hc]; tauto
  · intro r hok hfind
    simp only [checkForDuplicate, hmiss, dupCheckGo, hok, hfind, if_true]
  · intro hok hfind
    simp only [checkForDuplicate, hmiss, dupCheckGo, hok, hfind, if_true]
  · intro a ha
    unfold backoffDelayMs
    have h1 : a + 1 - 1 = a := by omega
    have h2 : a = (a - 1) + 1 := by omega
    rw [h1]
    calc 2 ^ a * 100 = 2 ^ ((a - 1) + 1) * 100 := by rw [← h2]
    _ = 2 * (2 ^ (a - 1) * 100) := by ring
  · unfold checkForDuplicate
    cases hcg : cacheGet st.cache (.dup (generateJobHash f)) with
    | some j => simp only [hcg]; simp
    | none =>
        simp only [hcg]
        by_cases h1 : ok 1
        · cases hf : st.rows.find? (dupPred f (generateJobHash f)) with
          | some r => simp [dupCheckGo, h1, hf]
          | none => simp [dupCheckGo, h1, hf]
        · by_cases h2 : ok 2
          · cases hf : st.rows.find? (dupPred f (generateJobHash f)) with
            | some r => simp [dupCheckGo, h1, h2, hf]
            | none => simp [dupCheckGo, h1, h2, hf]
          · by_cases h3 : ok 3
            · cases hf : st.rows.find? (dupPred f (generateJobHash f)) with
              | some r => simp [dupCheckGo, h1, h2, h3, hf]
              | none => simp [dupCheckGo, h1, h2, h3, hf]
            · simp [dupCheckGo, h1, h2, h3]
  · intro h1 h2 h3
    simp only [checkForDuplicate, hmiss, dupCheckGo, h1, h2, h3, if_false,
      Bool.false_eq_true]
    rfl

/-- Concrete fields for the C6 witness. -/
def c6fields : DuplicateCheckFields :=
  { name := "a", frequency := .DAILY, cronExpression := none, data := .jnull }

/-- Concrete matching row for the C6 witness. -/
def c6row : DbRow :=
  { id := 7, name := "a", description := none, statusS := "pending",
    enabled := true, frequencyS := "daily", cronExpression := none,
    startDate := 0, endDate := none, lastRunAt := none, nextRunAt := none,
    data := .jnull, dataHash := generateJobHash c6fields, retryCount := 0,
    maxRetries := 3, createdAt := 0, updatedAt := 0 }

/-- Concrete state for the C6 witness: one matching row, cold cache. -/
def c6st : SysState := { rows := [c6row], nextId := 8, cache := [], queue := [] }

/-- Witness for C6: with a cold cache and a healthy store, the single
matching row is found on the first attempt, returned, and cached for a
day. -/
theorem checkForDuplicateStoreLookupAlgorithmWitness :
    checkForDuplicate c6st (fun _ => true) c6fields =
      (some (mapDbRowToJob c6row),
       { c6st with cache := cacheSet c6st.cache (.dup (generateJobHash c6fields))
                     (mapDbRowToJob c6row) dupCacheTtlSeconds },
       ⟨1, [], dupQueryTimeoutMs⟩) :=
  (checkForDuplicateStoreLookupAlgorithm c6st (fun _ => true) c6fields rfl).2.1
    c6row rfl
    (by
      have hp : dupPred c6fields (generateJobHash c6fields) c6row = true := by
        simp [dupPred, c6fields, c6row, frequencyToDbString]
      exact List.find?_cons_of_pos _ hp)

/-! ## Claims C1 and C2: admission through createJob -/

theorem scheduleJob_result (now : Int) (st : SysState) (j : Job) (v : Option Int)
    (hc : (calculateNextRun now (schedOfJob j)).1 = Except.ok v)
    (res : Except String SysState) (hres : scheduleJob now st j = res) :
    ∃ st2, res = .ok st2 ∧ st2.rows = st.rows ∧ st2.cache = st.cache ∧
      st2.nextId = st.nextId := by
  rw [← hres]
  exact scheduleJob_shape now st j v hc

theorem schedOfJob_mkCreatedRow (now : Int) (st : SysState) (jd : CreateJobData)
    (nr : Option Int) (hash : String) :
    schedOfJob (mapDbRowToJob (mkCreatedRow now st jd nr hash)) = schedOfCreate jd := by
  simp [schedOfJob, mapDbRowToJob, mkCreatedRow, schedOfCreate,
    dbStringToFrequency_roundtrip]

theorem mkCreatedRow_dupPred (now : Int) (st : SysState) (jd : CreateJobData)
    (nr : Option Int) :
    dupPred (dupFieldsOf jd) (generateJobHash (dupFieldsOf jd))
      (mkCreatedRow now st jd nr (generateJobHash (dupFieldsOf jd))) = true := by
  cases hc : jd.cronExpression with
  | none => simp [dupPred, dupFieldsOf, mkCreatedRow, hc]
  | some c => simp [dupPred, dupFieldsOf, mkCreatedRow, hc]

theorem insertConflicts_false_of_no_dup (jd : CreateJobData) (rows : List DbRow)
    (hrows : ∀ r ∈ rows,
      dupPred (dupFieldsOf jd) (generateJobHash (dupFieldsOf jd)) r = false) :
    insertConflicts rows jd.name (frequencyToDbString jd.frequency)
      jd.cronExpression (generateJobHash (dupFieldsOf jd)) = false := by
  rw [insertConflicts, List.any_eq_false]
  intro r hr
  intro hcontra
  rw [Bool.and_eq_true, Bool.and_eq_true, Bool.and_eq_true] at hcontra
  obtain ⟨⟨⟨hn, hf⟩, hcr⟩, hh⟩ := hcontra
  have hdup : dupPred (dupFieldsOf jd) (generateJobHash (dupFieldsOf jd)) r = true := by
    cases hjc : jd.cronExpression with
    | none =>
        rw [hjc] at hcr
        cases hrc : r.cronExpression with
        | none => rw [hrc] at hcr; cases hcr
        | some a => rw [hrc] at hcr; cases hcr
    | some b =>
        cases hrc : r.cronExpression with
        | none => rw [hjc, hrc] at hcr; cases hcr
        | some a =>
            rw [hjc, hrc] at hcr
            have hab : a = b := by simpa using hcr
            subst hab
            simp only [dupPred, dupFieldsOf] at hh ⊢
            rw [hjc] at hh ⊢
            simp only [Bool.and_eq_true]
            refine ⟨⟨⟨hn, hf⟩, ?_⟩, hh⟩
            rw [hrc]
            simp
  rw [hrows r hr] at hdup
  cases hdup

/-- Successful insert path of createRest, used by C1 and C2. -/
theorem createRest_ok (now : Int) (st : SysState) (jd : CreateJobData)
    (nr : Option Int)
    (hcalc : (calculateNextRun now (schedOfCreate jd)).1 = .ok nr)
    (hnoconf : insertConflicts st.rows jd.name (frequencyToDbString jd.frequency)
      jd.cronExpression (generateJobHash (dupFieldsOf jd)) = false) :
    ∃ st2,
      createRest now st jd =
        .ok (mapDbRowToJob (mkCreatedRow now st jd nr (generateJobHash (dupFieldsOf jd))), st2) ∧
      st2.rows = st.rows ++ [mkCreatedRow now st jd nr (generateJobHash (dupFieldsOf jd))] ∧
      st2.nextId = st.nextId + 1 ∧
      cacheGet st2.cache (.dup (generateJobHash (dupFieldsOf jd))) =
        some (mapDbRowToJob (mkCreatedRow now st jd nr (generateJobHash (dupFieldsOf jd)))) := by
  have hcalc2 : (calculateNextRun now (schedOfJob (mapDbRowToJob
      (mkCreatedRow now st jd nr (generateJobHash (dupFieldsOf jd)))))).1 = .ok nr := by
    rw [schedOfJob_mkCreatedRow]; exact hcalc
  simp only [createRest, hcalc, hnoconf, Bool.false_eq_true, if_false]
  split
  · rename_i m heq
    obtain ⟨st4, habs, -, -, -⟩ := scheduleJob_result now _ _ nr hcalc2 _ heq
    cases habs
  · rename_i st4 heq
    obtain ⟨st4b, hEq2, h1, h2, h3⟩ := scheduleJob_result now _ _ nr hcalc2 _ heq
    cases hEq2
    refine ⟨_, rfl, ?_, ?_, ?_⟩
    · rw [h1]
    · rw [h3]
    · rw [cacheGet_invalidateJobListCaches_dup, h2, cacheSet, cacheGet_cons]
      simp

/-- Claim C2: if every one of the up to 3 store lookup attempts inside
checkForDuplicate raises, the check fails open and returns null, and a
subsequent createJob in that run succeeds: the caller sees neither a
DuplicateJob failure nor a duplicate-check I/O error. -/
theorem checkForDuplicateFailOpen (now : Int) (st : SysState)
    (jd : CreateJobData) (nr : Option Int)
    (hmiss : cacheGet st.cache (.dup (generateJobHash (dupFieldsOf jd))) = none)
    (hcalc : (calculateNextRun now (schedOfCreate jd)).1 = .ok nr)
    (hnoconf : insertConflicts st.rows jd.name (frequencyToDbString jd.frequency)
      jd.cronExpression (generateJobHash (dupFieldsOf jd)) = false) :
    (checkForDuplicate st (fun _ => false) (dupFieldsOf jd)).1 = none ∧
    ∃ j st2, createJob now st (fun _ => false) jd false = .ok (j, st2) := by
  have hchk : checkForDuplicate st (fun _ => false) (dupFieldsOf jd) =
      (none, st, ⟨3, [100, 200], 5000⟩) := by
    simp [checkForDuplicate, hmiss, dupCheckGo, backoffDelayMs, dupQueryTimeoutMs]
  constructor
  · rw [hchk]
  · obtain ⟨st2, heq, -, -, -⟩ := createRest_ok now st jd nr hcalc hnoconf
    refine ⟨mapDbRowToJob (mkCreatedRow now st jd nr (generateJobHash (dupFieldsOf jd))),
      st2, ?_⟩
    simp only [createJob, Bool.false_eq_true, if_false, hchk]
    exact heq

/-- Witness input for C1 and C2. -/
def cwJd : CreateJobData :=
  { name := "w", description := none, status := some .PENDING, enabled := true,
    frequency := .ONCE, cronExpression := none, startDate := 0, endDate := none,
    lastRunAt := none, nextRunAt := none, data := .jnull, retryCount := 0,
    maxRetries := 3 }

/-- Witness state for C1 and C2: empty store, cold cache. -/
def cwSt : SysState := { rows := [], nextId := 1, cache := [], queue := [] }

/-- Witness for C2 at a concrete empty state with every attempt failing. -/
theorem checkForDuplicateFailOpenWitness :
    (checkForDuplicate cwSt (fun _ => false) (dupFieldsOf cwJd)).1 = none ∧
    ∃ j st2, createJob 10 cwSt (fun _ => false) cwJd false = .ok (j, st2) :=
  checkForDuplicateFailOpen 10 cwSt cwJd (some 0) rfl rfl rfl

/-- Claim C1: idempotent admission.  From a state whose store and duplicate
cache hold nothing matching the fingerprint tuple of the fields, the first
createJob (forceCreate unset) persists exactly one matching job, and a second
identical createJob fails with a DUPLICATE_JOB error carrying the job
persisted by the first call, including its id. -/
theorem createJobIdempotentAdmission (now : Int) (st : SysState)
    (jd : CreateJobData) (nr : Option Int)
    (hrows : ∀ r ∈ st.rows,
      dupPred (dupFieldsOf jd) (generateJobHash (dupFieldsOf jd)) r = false)
    (hmiss : cacheGet st.cache (.dup (generateJobHash (dupFieldsOf jd))) = none)
    (hcalc : (calculateNextRun now (schedOfCreate jd)).1 = .ok nr) :
    ∃ j1 st1,
      createJob now st (fun _ => true) jd false = .ok (j1, st1) ∧
      j1.id = st.nextId ∧
      st1.rows.countP
        (dupPred (dupFieldsOf jd) (generateJobHash (dupFieldsOf jd))) = 1 ∧
      createJob now st1 (fun _ => true) jd false = .error (.duplicateJob j1) := by
  have hfind : st.rows.find?
      (dupPred (dupFieldsOf jd) (generateJobHash (dupFieldsOf jd))) = none := by
    rw [List.find?_eq_none]
    intro x hx
    simp [hrows x hx]
  have hchk : checkForDuplicate st (fun _ => true) (dupFieldsOf jd) =
      (none, st, ⟨1, [], dupQueryTimeoutMs⟩) := by
    simp [checkForDuplicate, hmiss, dupCheckGo, hfind]
  have hnoconf := insertConflicts_false_of_no_dup jd st.rows hrows
  obtain ⟨st2, heq, hrows2, hnid2, hcget2⟩ := createRest_ok now st jd nr hcalc hnoconf
  refine ⟨mapDbRowToJob (mkCreatedRow now st jd nr (generateJobHash (dupFieldsOf jd))),
    st2, ?_, ?_, ?_, ?_⟩
  · simp only [createJob, Bool.false_eq_true, if_false, hchk]
    exact heq
  · simp [mapDbRowToJob, mkCreatedRow]
  · rw [hrows2, List.countP_append]
    have h0 : st.rows.countP
        (dupPred (dupFieldsOf jd) (generateJobHash (dupFieldsOf jd))) = 0 := by
      rw [List.countP_eq_zero]
      intro r hr
      simp [hrows r hr]
    rw [h0]
    simp [List.countP_cons, mkCreatedRow_dupPred now st jd nr]
  · have hchk2 : checkForDuplicate st2 (fun _ => true) (dupFieldsOf jd) =
        (some (mapDbRowToJob (mkCreatedRow now st jd nr (generateJobHash (dupFieldsOf jd)))),
         st2, ⟨0, [], dupQueryTimeoutMs⟩) := by
      simp only [checkForDuplicate, hcget2, remapJob_eq]
    simp only [createJob, Bool.false_eq_true, if_false, hchk2]

/-- Witness for C1 at a concrete empty state. -/
theorem createJobIdempotentAdmissionWitness :
    ∃ j1 st1,
      createJob 10 cwSt (fun _ => true) cwJd false = .ok (j1, st1) ∧
      j1.id = cwSt.nextId ∧
      st1.rows.countP
        (dupPred (dupFieldsOf cwJd) (generateJobHash (dupFieldsOf cwJd))) = 1 ∧
      createJob 10 st1 (fun _ => true) cwJd false = .error (.duplicateJob j1) :=
  createJobIdempotentAdmission 10 cwSt cwJd (some 0)
    (by intro r hr; cases hr) rfl rfl

/-! ## Claim C5: scope of the nextRunAt recomputation in updateJob -/

/-- Claim C5 (amended): updateJob recomputes nextRunAt only when the update
payload carries a frequency, and then computes it from the partial update
object rather than the merged job; an update that changes only
cronExpression, startDate, endDate or lastRunAt (and does not set nextRunAt
explicitly) leaves nextRunAt at its pre-update value. -/
theorem updateJobNextRunRecomputeScope (now : Int) (st : SysState) (id : Nat)
    (p : UpdatePayload) (r : DbRow)
    (hfind : st.rows.find? (fun row => row.id == id) = some r) :
    (p.frequency = none → p.nextRunAt = none →
      ∀ j st2, updateJob now st id p = .ok (some (j, st2)) →
        j.nextRunAt = r.nextRunAt) ∧
    (∀ fr, p.frequency = some fr →
      ∀ j st2, updateJob now st id p = .ok (some (j, st2)) →
        Except.ok j.nextRunAt = (calculateNextRun now (schedOfPayload fr p)).1) := by
  constructor
  · intro hp hn j st2 h
    simp only [updateJob, hp, hfind] at h
    split at h
    · cases h
    · rename_i st4 heq
      simp only [Except.ok.injEq, Option.some.injEq, Prod.mk.injEq] at h
      obtain ⟨hj, -⟩ := h
      rw [← hj]
      simp [mapDbRowToJob, applyPayloadRow, hp, hn]
  · intro fr hfr j st2 h
    simp only [updateJob, hfr] at h
    cases hc : (calculateNextRun now (schedOfPayload fr p)).1 with
    | error m => rw [hc] at h; cases h
    | ok nr =>
        rw [hc] at h
        simp only [hfind] at h
        split at h
        · cases h
        · rename_i st4 heq
          simp only [Except.ok.injEq, Option.some.injEq, Prod.mk.injEq] at h
          obtain ⟨hj, -⟩ := h
          rw [← hj]
          simp [mapDbRowToJob, applyPayloadRow, hfr]

/-- Stale row for the C5 counterexample: a DAILY job whose stored nextRunAt
is 5. -/
def c5row : DbRow :=
  { id := 1, name := "j", description := none, statusS := "pending",
    enabled := true, frequencyS := "daily", cronExpression := none,
    startDate := 0, endDate := none, lastRunAt := some 0, nextRunAt := some 5,
    data := .jnull, dataHash := "h", retryCount := 0, maxRetries := 3,
    createdAt := 0, updatedAt := 0 }

/-- State for the C5 counterexample. -/
def c5st : SysState := { rows := [c5row], nextId := 2, cache := [], queue := [] }

/-- Payload for the C5 counterexample: only startDate changes. -/
def c5p : UpdatePayload := { startDate := some 999 }

/-- Counterexample to C5 as stated: an update that changes startDate (a
scheduling field) succeeds but leaves the persisted nextRunAt at its stale
pre-update value 5, while the schedule calculator on the merged job yields
86400000. -/
theorem updateJobStaleNextRunCounterexample :
    ∃ j st2, updateJob 1000000 c5st 1 c5p = .ok (some (j, st2)) ∧
      j.nextRunAt = some 5 ∧
      (calculateNextRun 1000000 (schedOfJob j)).1 = .ok (some 86400000) ∧
      j.nextRunAt ≠ (some 86400000 : Option Int) := by
  refine ⟨_, _, rfl, rfl, rfl, by decide⟩

/-- Witness for the amended C5 theorem at the counterexample input. -/
theorem updateJobNextRunRecomputeScopeWitness :
    ∃ j st2, updateJob 1000000 c5st 1 c5p = Except.ok (some (j, st2)) ∧
      j.nextRunAt = c5row.nextRunAt := by
  refine ⟨_, _, rfl, ?_⟩
  exact (updateJobNextRunRecomputeScope 1000000 c5st 1 c5p c5row rfl).1 rfl rfl _ _ rfl

/-! ## Claim C8: enable and disable -/

theorem scheduleJob_queue_cases (now : Int) (st : SysState) (j : Job)
    (st2 : SysState) (h : scheduleJob now st j = .ok st2) :
    st2.rows = st.rows ∧ st2.cache = st.cache ∧
    ((j.frequency = .ONCE ∧
        ∃ t, (calculateNextRun now (schedOfJob j)).1 = .ok (some t) ∧
          t - now > 0 ∧ st2.queue = st.queue ++ [⟨j.id, .oneShot (t - now)⟩]) ∨
     (j.frequency ≠ .ONCE ∧
        ∃ c, getCronExpression j = some c ∧
          st2.queue = st.queue ++ [⟨j.id, .repeatPattern c⟩]) ∨
     st2.queue = st.queue) := by
  simp only [scheduleJob, remapJob_eq] at h
  by_cases he : j.enabled
  · simp only [he, Bool.not_true, Bool.false_eq_true, if_false] at h
    cases hc : (calculateNextRun now (schedOfJob j)).1 with
    | error m => rw [hc] at h; cases h
    | ok v =>
        rw [hc] at h
        by_cases hf : j.frequency = .ONCE
        · simp only [hf, beq_self_eq_true, if_true] at h
          cases v with
          | none => cases h; exact ⟨rfl, rfl, Or.inr (Or.inr rfl)⟩
          | some t =>
              by_cases hd : t - now > 0
              · simp only [hd, if_true] at h
                cases h
                exact ⟨rfl, rfl, Or.inl ⟨hf, t, rfl, hd, rfl⟩⟩
              · simp only [hd, if_false] at h
                cases h
                exact ⟨rfl, rfl, Or.inr (Or.inr rfl)⟩
        · have hfb : (j.frequency == JobFrequency.ONCE) = false :=
            beq_eq_false_iff_ne.mpr hf
          simp only [hfb, Bool.false_eq_true, if_false] at h
          cases hcr : getCronExpression j with
          | some c =>
              rw [hcr] at h
              cases h
              exact ⟨rfl, rfl, Or.inr (Or.inl ⟨hf, c, rfl, rfl⟩)⟩
          | none =>
              rw [hcr] at h
              cases h
              exact ⟨rfl, rfl, Or.inr (Or.inr rfl)⟩
  · simp only [he, Bool.not_false, if_true] at h
    cases h
    exact ⟨rfl, rfl, Or.inr (Or.inr rfl)⟩

/-- Claim C8 (amended): disableJob sets enabled to false, changes no other
row field except updatedAt, and removes the queue entries of the job;
enableJob sets enabled to true, changes no other row field except updatedAt,
leaves the queue untouched when the status is not PENDING, and when the
status is PENDING it invokes the scheduler, which actually submits a queue
entry only when the schedule produces one (a ONCE job with a strictly future
next run, or a recurring job with a derivable cron pattern) and otherwise
leaves the queue unchanged. -/
theorem enableDisableFrameAndQueue (now : Int) (st : SysState) (id : Nat)
    (r : DbRow)
    (hfind : st.rows.find? (fun row => row.id == id) = some r) :
    (∃ st2, disableJob now st id =
        some (mapDbRowToJob { r with enabled := false, updatedAt := now }, st2) ∧
      st2.rows = st.rows.map (fun row =>
        if row.id == id then { r with enabled := false, updatedAt := now } else row) ∧
      st2.queue = removeJobScheduler st.queue id) ∧
    (dbStringToStatus r.statusS ≠ .PENDING →
      enableJob now st id = .ok (some
        (mapDbRowToJob { r with enabled := true, updatedAt := now },
         { st with
             rows := st.rows.map (fun row =>
               if row.id == id then { r with enabled := true, updatedAt := now } else row),
             cache := invalidateAllJobCaches st.cache }))) ∧
    (dbStringToStatus r.statusS = .PENDING →
      ∀ j st2, enableJob now st id = .ok (some (j, st2)) →
        j = mapDbRowToJob { r with enabled := true, updatedAt := now } ∧
        st2.rows = st.rows.map (fun row =>
          if row.id == id then { r with enabled := true, updatedAt := now } else row) ∧
        ((j.frequency = .ONCE ∧
            ∃ t, (calculateNextRun now (schedOfJob j)).1 = .ok (some t) ∧
              t - now > 0 ∧ st2.queue = st.queue ++ [⟨j.id, .oneShot (t - now)⟩]) ∨
         (j.frequency ≠ .ONCE ∧
            ∃ c, getCronExpression j = some c ∧
              st2.queue = st.queue ++ [⟨j.id, .repeatPattern c⟩]) ∨
         st2.queue = st.queue)) := by
  refine ⟨?_, ?_, ?_⟩
  · simp only [disableJob, hfind]
    exact ⟨_, rfl, rfl, rfl⟩
  · intro hs
    have hsb : ((mapDbRowToJob { r with enabled := true, updatedAt := now }).status ==
        JobStatus.PENDING) = false := by
      rw [beq_eq_false_iff_ne]
      simpa [mapDbRowToJob] using hs
    simp only [enableJob, hfind, hsb, Bool.false_eq_true, if_false]
  · intro hs j st2 h
    have hsb : ((mapDbRowToJob { r with enabled := true, updatedAt := now }).status ==
        JobStatus.PENDING) = true := by
      simpa [mapDbRowToJob] using hs
    simp only [enableJob, hfind, hsb, if_true] at h
    split at h
    · cases h
    · rename_i st4 heq
      simp only [Except.ok.injEq, Option.some.injEq, Prod.mk.injEq] at h
      obtain ⟨hj, hst⟩ := h
      subst hst
      obtain ⟨hr4, -, hq4⟩ := scheduleJob_queue_cases now _ _ _ heq
      rw [hj] at hq4
      refine ⟨hj.symm, ?_, ?_⟩
      · rw [hr4]
      · simpa using hq4

/-- Row for the C8 counterexample: a disabled, PENDING, ONCE job whose
startDate already passed. -/
def c8row : DbRow :=
  { id := 1, name := "x", description := none, statusS := "pending",
    enabled := false, frequencyS := "once", cronExpression := none,
    startDate := 0, endDate := none, lastRunAt := none, nextRunAt := none,
    data := .jnull, dataHash := "h", retryCount := 0, maxRetries := 3,
    createdAt := 0, updatedAt := 0 }

/-- State for the C8 counterexample. -/
def c8st : SysState := { rows := [c8row], nextId := 2, cache := [], queue := [] }

/-- Counterexample to C8 as stated: enabling this PENDING job succeeds, yet
no work-queue entry is submitted (its ONCE schedule is not in the future), so
re-submission does not follow from status PENDING alone; the updatedAt field
also changes. -/
theorem enableJobPendingNotResubmittedCounterexample :
    ∃ j st2, enableJob 50 c8st 1 = .ok (some (j, st2)) ∧
      j.status = .PENDING ∧ j.enabled = true ∧ st2.queue = [] ∧
      j.updatedAt ≠ c8row.updatedAt := by
  refine ⟨_, _, rfl, rfl, rfl, rfl, by decide⟩

/-- Witness for the amended C8 theorem at the counterexample input: disable
removes the queue entries and flips only enabled and updatedAt, and the
PENDING enable path reports one of the three scheduler outcomes. -/
theorem enableDisableFrameAndQueueWitness :
    ∃ st2, disableJob 50 c8st 1 =
        some (mapDbRowToJob { c8row with enabled := false, updatedAt := 50 }, st2) ∧
      st2.rows = c8st.rows.map (fun row =>
        if row.id == 1 then { c8row with enabled := false, updatedAt := 50 } else row) ∧
      st2.queue = removeJobScheduler c8st.queue 1 :=
  (enableDisableFrameAndQueue 50 c8st 1 c8row rfl).1

/-! ## Claim C4: unique-constraint violation on insert -/

/-- Create input for the C4 scenario: a CUSTOM job with a cron expression. -/
def c4jd : CreateJobData :=
  { name := "x", description := none, status := some .PENDING, enabled := true,
    frequency := .CUSTOM, cronExpression := some "0 9 * * *", startDate := 0,
    endDate := none, lastRunAt := none, nextRunAt := none, data := .jnull,
    retryCount := 0, maxRetries := 3 }

/-- An already-persisted row carrying the same (name, frequency,
cronExpression, dataHash) unique tuple as c4jd. -/
def c4row : DbRow :=
  { id := 1, name := "x", description := none, statusS := "pending",
    enabled := true, frequencyS := "custom",
    cronExpression := some "0 9 * * *", startDate := 0, endDate := none,
    lastRunAt := none, nextRunAt := none, data := .jnull,
    dataHash := generateJobHash (dupFieldsOf c4jd), retryCount := 0,
    maxRetries := 3, createdAt := 0, updatedAt := 0 }

/-- State for the C4 scenario: the conflicting row exists but the
duplicate-check path misses it (cold cache, every lookup attempt fails, so
the check fails open), and the insert then hits the unique constraint. -/
def c4st : SysState := { rows := [c4row], nextId := 2, cache := [], queue := [] }

/-- Claim C4 evaluated on the code: when the insert inside createJob fails
with the unique-constraint violation on (name, frequency, cronExpression,
fingerprint), createJob has no handler for it, so the caller observes the raw
store error and never a DUPLICATE_JOB failure. -/
theorem createJobUniqueViolationRawError :
    createJob 100 c4st (fun _ => false) c4jd false = .error .uniqueViolation ∧
    ∀ j : Job,
      createJob 100 c4st (fun _ => false) c4jd false ≠
        .error (.duplicateJob j) := by
  have hconf : insertConflicts c4st.rows c4jd.name
      (frequencyToDbString c4jd.frequency) c4jd.cronExpression
      (generateJobHash (dupFieldsOf c4jd)) = true := by
    simp [insertConflicts, c4st, c4row, c4jd, frequencyToDbString]
  have hchk : checkForDuplicate c4st (fun _ => false) (dupFieldsOf c4jd) =
      (none, c4st, ⟨3, [100, 200], 5000⟩) := by
    simp [checkForDuplicate, dupCheckGo, backoffDelayMs, dupQueryTimeoutMs,
      cacheGet, c4st]
  have hcalc : (calculateNextRun 100 (schedOfCreate c4jd)).1 =
      Except.ok (some 0) := rfl
  have h : createJob 100 c4st (fun _ => false) c4jd false =
      .error .uniqueViolation := by
    simp only [createJob, Bool.false_eq_true, if_false, hchk, createRest,
      hcalc, hconf, if_true]
  refine ⟨h, ?_⟩
  intro j hc
  rw [h] at hc
  simp only [Except.error.injEq] at hc
  cases hc
